import Mathlib

/-!
Verification development for the SudoStake agent's
Liquidity-Request & Delegation-Accounting engine.

The Python sources are embedded shallowly:
* transaction statuses are JSON-like dictionaries (`Json`), and dictionary
  access mirrors Python `dict.get` semantics, including the `AttributeError`
  raised when `.get` is called on a non-dict (modelled with `Except`);
* Python truthiness (`if failure:`) is modelled by `Json.truthy`;
* `decimal.Decimal` arithmetic is modelled over `ℚ` under the default
  context: `quantize(Decimal("1"))` (default `ROUND_HALF_EVEN`) is
  `roundHalfEven`, arithmetic results are rounded to the context's 28
  significant digits (`roundSig 28`), and `quantize` raises
  `InvalidOperation` when the rounded coefficient would exceed 28 digits.
-/

namespace SudoStake

/-- JSON-like values, the shape of transaction statuses and vault views
consumed by the agent tools. -/
inductive Json where
  | null : Json
  | bool (b : Bool) : Json
  | str (s : String) : Json
  | int (n : Int) : Json
  | obj (fields : List (String × Json)) : Json

/-- Lookup of a key in a JSON object field list (Python `dict` keys are
unique, so first match suffices). -/
def dictFind (fields : List (String × Json)) (k : String) : Option Json :=
  match fields with
  | [] => none
  | (k1, v) :: rest => if k1 = k then some v else dictFind rest k

/-- Python `d.get(k)`: returns the value or `None`; raises `AttributeError`
when `d` is not a dict (modelled as `Except.error`). -/
def Json.get (j : Json) (k : String) : Except String (Option Json) :=
  match j with
  | .obj fields => .ok (dictFind fields k)
  | _ => .error "AttributeError"

/-- Python `d.get(k, {})`: like `Json.get` but with `{}` as default. -/
def Json.getD (j : Json) (k : String) : Except String Json :=
  (j.get k).map (fun v => v.getD (.obj []))

/-- Python truthiness of a JSON value: `None`, `False`, `""`, `0`, `{}`
are falsy, everything else truthy. -/
def Json.truthy : Json → Bool
  | .null => false
  | .bool b => b
  | .str s => !s.isEmpty
  | .int n => n != 0
  | .obj fs => !fs.isEmpty

/-- Truthiness of a Python value that may be `None` (`Option Json`). -/
def optTruthy : Option Json → Bool
  | some j => j.truthy
  | none => false

/-- Embedding of `helpers.get_failure_message_from_tx_status`:
reads `status["Failure"]["ActionError"]["kind"]["FunctionCallError"]`
with `{}` defaults and returns its `"ExecutionError"` entry; returns
`None` when `status` has no truthy `Failure` value. -/
def get_failure_message_from_tx_status (status : Json) : Except String (Option Json) :=
  match status.get "Failure" with
  | .error e => .error e
  | .ok none => .ok none
  | .ok (some failure) =>
      if failure.truthy then
        match failure.getD "ActionError" with
        | .error e => .error e
        | .ok action_err =>
            match action_err.getD "kind" with
            | .error e => .error e
            | .ok kind =>
                match kind.getD "FunctionCallError" with
                | .error e => .error e
                | .ok func_err => func_err.get "ExecutionError"
      else .ok none

/-- Python `str.lower()` (ASCII case folding, all the registry and tool
inputs are ASCII), character by character. -/
def pyLower (s : String) : String :=
  (s.toList.map Char.toLower).asString

/-- Python `str.strip()`: drop leading and trailing whitespace. -/
def pyStrip (s : String) : String :=
  ((s.toList.dropWhile Char.isWhitespace).reverse.dropWhile
      Char.isWhitespace).reverse.asString

/-- Lexicographic comparison of character lists by code point, the order
Python `sorted` uses on strings. -/
def charLe : List Char → List Char → Bool
  | [], _ => true
  | _ :: _, [] => false
  | a :: as, b :: bs =>
      if a < b then true else if b < a then false else charLe as bs

/-- Lexicographic string comparison by code point (Python `<=` on str). -/
def strLeb (a b : String) : Bool :=
  charLe a.toList b.toList

/-- Occurrence of `needle` as a contiguous sublist of a character list. -/
def containsSub (needle : List Char) : List Char → Bool
  | [] => needle.isEmpty
  | c :: rest => needle.isPrefixOf (c :: rest) || containsSub needle rest

/-- Substring test over strings (`needle in hay` in Python), via character
lists. -/
def strContains (hay needle : String) : Bool :=
  containsSub needle.toList hay.toList

/-- Modelled from the spec: `log_contains_event` is imported by the tools
from `helpers`, but its definition is not among the sources at hand (only
its callers are).  Spec §6: log lines prefixed `EVENT_JSON:` carry a JSON
payload with an `event` field and "the engine matches on known event names
as substrings for soft-failure detection"; spec §9 calls this duck-typed
log scanning (substring matching on event names). -/
def log_contains_event (logs : List String) (event : String) : Bool :=
  logs.any (fun line => strContains line event)

/-- Transaction outcome shape consumed by the tools:
`{status, logs, transaction: {hash}}`. -/
structure TransactionResult where
  status : Json
  logs : List String
  tx_hash : String

/-! ### repay_loan (src/agent/src/tools/active_loan.py) -/

/-- Outcome of `active_loan.repay_loan`, one constructor per terminal
`env.add_reply` branch of the source.  `index_vault_to_firebase` is invoked
exactly on the `success` path (best-effort, before the success reply). -/
inductive RepayOutcome where
  | contractPanic (msg : Json) : RepayOutcome
  | softFailure : RepayOutcome
  | success (txHash : String) : RepayOutcome
  | unexpectedError (e : String) : RepayOutcome

/-- Embedding of `active_loan.repay_loan` after the `repay_loan` contract
call returned `tx`: panic check first, then log scan for
`repay_loan_failed`, else indexing and the success reply; an exception
raised while reading the status lands in the outer `except` branch. -/
def repay_loan (tx : TransactionResult) : RepayOutcome :=
  match get_failure_message_from_tx_status tx.status with
  | .error e => .unexpectedError e
  | .ok failure =>
      if optTruthy failure then
        .contractPanic (failure.getD .null)
      else if log_contains_event tx.logs "repay_loan_failed" then
        .softFailure
      else
        .success tx.tx_hash

/-- The source calls `index_vault_to_firebase` only on the success path of
`repay_loan` (after the panic and log checks, before the success reply). -/
def repay_triggers_indexing (tx : TransactionResult) : Bool :=
  match repay_loan tx with
  | .success _ => true
  | _ => false

/-! ### Token registry (src/agent/src/token_registry.py) -/

/-- Metadata record of a whitelisted token. -/
structure TokenMetadata where
  symbol : String
  contract : String
  decimals : Nat
  aliases : List String
deriving DecidableEq

/-- Canonical token registry per network, as in `token_registry.py`. -/
def TOKEN_REGISTRY : List (String × List (String × TokenMetadata)) :=
  [("testnet",
      [("usdc",
        { symbol := "USDC",
          contract := "usdc.tkn.primitives.testnet",
          decimals := 6,
          aliases := ["$", "usd", "usdc"] })]),
   ("mainnet",
      [("usdc",
        { symbol := "USDC",
          contract := "17208628f84f5d6ad33f0da3bbbeb27ffcb398eac501a31bd6ad2011e36133a1",
          decimals := 6,
          aliases := ["$", "usd", "usdc"] })])]

/-- Association-list lookup mirroring Python `dict.get`. -/
def assocFind {α : Type} (l : List (String × α)) (k : String) : Option α :=
  match l with
  | [] => none
  | (k1, v) :: rest => if k1 = k then some v else assocFind rest k

/-- Embedding of `token_registry.get_token_metadata`: resolve a token by
alias on the given network; raises `ValueError` (modelled as
`Except.error`) for an unsupported network or token. -/
def get_token_metadata (network : String) (token_key : String) :
    Except String TokenMetadata :=
  match assocFind TOKEN_REGISTRY (pyLower network) with
  | none => .error ("Unsupported network: " ++ pyLower network)
  | some registry =>
      let normalized_key := pyLower (pyStrip token_key)
      match registry.find? (fun p =>
          (p.2.aliases.map pyLower).contains normalized_key) with
      | some p => .ok p.2
      | none =>
          .error ("Unsupported token " ++ token_key ++
                  " on network " ++ pyLower network)

/-! ### Decimal scaling (AmountScaler) -/

/-- Rounding to the nearest integer with ties to even, the behaviour of
`Decimal.quantize(Decimal("1"))` under the default `ROUND_HALF_EVEN`
context. -/
def roundHalfEven (q : ℚ) : ℤ :=
  let f : ℤ := ⌊q⌋
  let r : ℚ := q - f
  if r < 1 / 2 then f
  else if 1 / 2 < r then f + 1
  else if f % 2 = 0 then f else f + 1

/-- Rounding of a nonzero value to `prec` significant digits (ties to
even): the adjusted exponent of `v` is `Int.log 10 |v|`, so the last kept
digit sits at decimal position `Int.log 10 |v| + 1 - prec`.  This is the
value behaviour of the default `Decimal` context (`prec = 28`) on every
arithmetic result: a result whose coefficient has more than `prec` digits
is rounded there, and one that already fits is returned exactly — on which
this function is the identity. -/
def roundSig (prec : Nat) (v : ℚ) : ℚ :=
  if v = 0 then 0
  else
    ((roundHalfEven
        (v / (10 : ℚ) ^ (Int.log 10 |v| + 1 - (prec : ℤ))) : ℤ) : ℚ)
      * (10 : ℚ) ^ (Int.log 10 |v| + 1 - (prec : ℤ))

/-- Embedding of the minor-unit conversion
`int((Decimal(x) * (10 ** decimals)).quantize(Decimal("1")))` applied by
`request_liquidity` and `delegate` (with `YOCTO_FACTOR = 10^24`) under the
default `Decimal` context (28 significant digits, `InvalidOperation`
trapped): the multiplication result is rounded to 28 significant digits,
then `quantize(Decimal("1"))` rounds to a whole number and raises
`InvalidOperation` when the resulting coefficient would exceed 28 digits,
i.e. when the rounded integer reaches `10^28` in magnitude. -/
def to_minor_units (x : ℚ) (decimals : Nat) : Except String Int :=
  if (10 : Nat) ^ 28 ≤
      (roundHalfEven (roundSig 28 (x * (10 : ℚ) ^ decimals))).natAbs then
    .error "InvalidOperation"
  else
    .ok (roundHalfEven (roundSig 28 (x * (10 : ℚ) ^ decimals)))

/-- Embedding of the display conversion
`(Decimal(minor) / Decimal(10 ** decimals)).quantize(Decimal(1))` applied
by `view_pending_liquidity_requests` to amounts and interest (exact
division over `ℚ`; the `Decimal` 28-significant-digit context is only ever
exceeded far beyond any registered token's supply). -/
def to_human (minor : ℤ) (decimals : Nat) : ℚ :=
  ((roundHalfEven ((minor : ℚ) / (10 : ℚ) ^ decimals) : ℤ) : ℚ)

/-- Result of parsing a user-supplied amount string with
`decimal.Decimal`: a finite rational, a non-finite value (`NaN` or an
infinity, which `Decimal` accepts but `quantize` later rejects), or an
unparseable string (`Decimal` itself raises `InvalidOperation`). -/
inductive AmountInput where
  | fin (q : ℚ) : AmountInput
  | nonFinite : AmountInput
  | unparseable : AmountInput
deriving DecidableEq

/-- Result of a Python `try` block: the computed value (`some`) or the
`except` branch (`none`). -/
def exceptToOption {α : Type} : Except String α → Option α
  | .ok y => some y
  | .error _ => none

/-- Embedding of the local amount validation in `delegation.delegate`:
`int((Decimal(amount) * YOCTO_FACTOR).quantize(Decimal("1")))` inside a
`try`.  `some y` means the conversion succeeded and the `delegate` contract
call is issued with `amount = str(y)`; `none` means the `except` branch
replied "Invalid amount" and no contract call is issued — reached when the
string is unparseable (`Decimal` raises), parses non-finite (`quantize`
rejects `NaN`/infinities), or the quantized result would exceed the
context's 28-digit precision (`quantize` raises `InvalidOperation`). -/
def delegate_parse_amount (amount : AmountInput) : Option ℤ :=
  match amount with
  | .fin q => exceptToOption (to_minor_units q 24)
  | .nonFinite => none
  | .unparseable => none

/-! ### request_liquidity (src/agent/src/tools/liquidity_request.py) -/

/-- Arguments of the `request_liquidity` contract call built by
`tools/liquidity_request.request_liquidity`. -/
structure RequestLiquidityArgs where
  token : String
  amount : String
  interest : String
  collateral : String
  duration : Int
deriving DecidableEq

/-- Embedding of `int((Decimal(x) * (10 ** decimals)).quantize(Decimal("1")))`
for the integer operands of `request_liquidity`: the exact product is an
integer, so the context's 28-digit rounding is the identity whenever
`|x * 10^decimals| < 10^28` (at most 28 digits), and when the product
reaches `10^28` the rounding happens at a whole-number position and never
lowers the magnitude below `10^28`, so `quantize` still raises
`InvalidOperation`.  Hence the outcome is exactly: the product when its
magnitude is below `10^28`, an error otherwise. -/
def scale_int_to_minor (x : Int) (decimals : Nat) : Except String Int :=
  let p := x * (10 : Int) ^ decimals
  if (10 : Nat) ^ 28 ≤ p.natAbs then .error "InvalidOperation" else .ok p

/-- Embedding of the argument construction in `request_liquidity`
(lines 86–107): resolve the token by alias, scale `amount` and `interest`
by the token's decimals, scale `collateral` by `YOCTO_FACTOR = 10^24`,
and convert `duration` days to seconds.  The Python parameters are `int`s,
so each scaling is `scale_int_to_minor`; a quantize overflow propagates to
the tool's outer `except` branch like any other local error. -/
def request_liquidity_args (network : String) (amount : Int) (denom : String)
    (interest : Int) (duration : Int) (collateral : Int) :
    Except String RequestLiquidityArgs := do
  let token_meta ← get_token_metadata network (pyLower (pyStrip denom))
  let amount_scaled ← scale_int_to_minor amount token_meta.decimals
  let interest_scaled ← scale_int_to_minor interest token_meta.decimals
  let collateral_yocto ← scale_int_to_minor collateral 24
  let duration_secs : Int := duration * 86400
  pure { token := token_meta.contract,
         amount := toString amount_scaled,
         interest := toString interest_scaled,
         collateral := toString collateral_yocto,
         duration := duration_secs }

/-- Outcome of `request_liquidity` after the contract call returned, one
constructor per terminal branch.  `index_vault_to_firebase` is invoked
exactly on the `success` path. -/
inductive RequestOutcome where
  | contractPanic (msg : Json) : RequestOutcome
  | insufficientStake : RequestOutcome
  | success (txHash : String) : RequestOutcome
  | unexpectedError (e : String) : RequestOutcome

/-- Embedding of the outcome classification in `request_liquidity`
(lines 120–141): panic check first, then log scan for
`liquidity_request_failed_insufficient_stake`, else indexing and the
success reply. -/
def request_liquidity_classify (tx : TransactionResult) : RequestOutcome :=
  match get_failure_message_from_tx_status tx.status with
  | .error e => .unexpectedError e
  | .ok failure =>
      if optTruthy failure then
        .contractPanic (failure.getD .null)
      else if log_contains_event tx.logs
          "liquidity_request_failed_insufficient_stake" then
        .insufficientStake
      else
        .success tx.tx_hash

/-- The source calls `index_vault_to_firebase` only on the success path of
`request_liquidity`. -/
def request_triggers_indexing (tx : TransactionResult) : Bool :=
  match request_liquidity_classify tx with
  | .success _ => true
  | _ => false

/-! ### accept_liquidity_request (src/agent/src/tools/liquidity_request.py) -/

/-- The `liquidity_request` record of a vault state (TypedDict
`LiquidityRequest` in the source): amount/interest/collateral are
minor-unit decimal strings, duration is in seconds. -/
structure LiquidityRequest where
  token : String
  amount : String
  interest : String
  collateral : String
  duration : Int
deriving DecidableEq

/-- The `accepted_offer` record of a vault state (TypedDict
`AcceptedOffer` in the source). -/
structure AcceptedOffer where
  lender : String
  accepted_at : String
deriving DecidableEq

/-- Per-validator unstake entry of a vault state:
`{amount, epoch_height}`. -/
structure UnstakeEntry where
  amount : Nat
  epoch_height : Nat
deriving DecidableEq

/-- Vault state as returned by the `get_vault_state` view method and read
by `accept_liquidity_request` and `vault_delegation_summary`.  A present
`liquidity_request` / `accepted_offer` is a non-empty dict, hence truthy
in the Python membership tests. -/
structure VaultState where
  owner : String
  index : Int
  version : Int
  is_listed_for_takeover : Bool
  active_validators : List String
  unstake_entries : List (String × UnstakeEntry)
  liquidity_request : Option LiquidityRequest
  accepted_offer : Option AcceptedOffer
  current_epoch : Nat
deriving DecidableEq

/-- The `msg` payload of the funding `ft_transfer_call`
(`json.dumps(msg_payload)` in the source, modelled structurally;
`json.dumps` is injective on this fixed-key record). -/
structure AcceptMsgPayload where
  action : String
  token : String
  amount : String
  interest : String
  collateral : String
  duration : Int
deriving DecidableEq

/-- The `ft_transfer_call` transaction issued by
`accept_liquidity_request`: sent to the token contract, with the vault as
receiver, for the amount recorded in the pending request. -/
structure FtTransferCall where
  contract_id : String
  receiver_id : String
  amount : String
  msg : AcceptMsgPayload
deriving DecidableEq

/-- First phase of `accept_liquidity_request` after `get_vault_state`
returned `state`: either the single `NoActiveRequest` reply (no transfer
issued) or the funding transfer it sends. -/
inductive AcceptAction where
  | reject (reply : String) : AcceptAction
  | transfer (call : FtTransferCall) : AcceptAction
deriving DecidableEq

/-- User-facing message of the merged "no request / already accepted"
branch of `accept_liquidity_request`. -/
def noActiveRequestReply (vault_id : String) : String :=
  "❌ `" ++ vault_id ++
  "` has no active liquidity request or it has already been accepted."

/-- Embedding of `accept_liquidity_request` lines 237–271: the
`if offer or not req` guard (a present typed record is a non-empty dict,
hence truthy) and the construction of the `ft_transfer_call` from the
*current* `liquidity_request` only. -/
def accept_liquidity_request_action (vault_id : String) (state : VaultState) :
    AcceptAction :=
  if state.accepted_offer.isSome || state.liquidity_request.isNone then
    .reject (noActiveRequestReply vault_id)
  else
    match state.liquidity_request with
    | none => .reject (noActiveRequestReply vault_id)
    | some req =>
        .transfer
          { contract_id := req.token,
            receiver_id := vault_id,
            amount := req.amount,
            msg := { action := "AcceptLiquidityRequest",
                     token := req.token,
                     amount := req.amount,
                     interest := req.interest,
                     collateral := req.collateral,
                     duration := req.duration } }

/-- Outcome of `accept_liquidity_request` after the `ft_transfer_call`
returned `tx`.  The source inspects only the transaction status — there is
no log scan in this tool — and `index_vault_to_firebase` is invoked
exactly on the `accepted` path. -/
inductive AcceptTxOutcome where
  | transferPanic (msg : Json) : AcceptTxOutcome
  | accepted (txHash : String) : AcceptTxOutcome
  | unexpectedError (e : String) : AcceptTxOutcome

/-- Embedding of the outcome classification in `accept_liquidity_request`
(lines 273–299): panic check, then directly indexing and the success
reply — the transaction logs are never inspected. -/
def accept_liquidity_request_classify (tx : TransactionResult) :
    AcceptTxOutcome :=
  match get_failure_message_from_tx_status tx.status with
  | .error e => .unexpectedError e
  | .ok failure =>
      if optTruthy failure then
        .transferPanic (failure.getD .null)
      else
        .accepted tx.tx_hash

/-- The source calls `index_vault_to_firebase` only on the accepted path
of `accept_liquidity_request`. -/
def accept_triggers_indexing (tx : TransactionResult) : Bool :=
  match accept_liquidity_request_classify tx with
  | .accepted _ => true
  | _ => false

/-! ### vault_delegation_summary (src/agent/src/tools/summary.py) -/

/-- Result of a validator's `get_account(vault_id)` view: yocto-NEAR
balances (decimal strings on the wire) and the withdrawability flag. -/
structure StakingAccount where
  staked_balance : Nat
  unstaked_balance : Nat
  can_withdraw : Bool
deriving DecidableEq

/-- Lookup in a Python dict built from a list of key/value pairs
(`dict(state["unstake_entries"])`): later pairs override earlier ones. -/
def pyDictGet {α : Type} (pairs : List (String × α)) (k : String) : Option α :=
  match pairs with
  | [] => none
  | (k1, v) :: rest =>
      match pyDictGet rest k with
      | some v' => some v'
      | none => if k1 = k then some v else none

/-- One line of the delegation summary: either a normal per-validator
entry or the error record produced when that validator's query raised.
Balances are the exact `Decimal(balance) / YOCTO_FACTOR` quotients (their
5-decimal rendering is pure display).  `lock_info` is present exactly when
`can_withdraw` is false and carries the `epoch_height` of the matching
unstake entry (if any) together with the vault's `current_epoch`. -/
inductive SummaryItem where
  | entry (validator : String) (staked unstaked : ℚ) (can_withdraw : Bool)
      (lock_info : Option (Option Nat × Nat)) : SummaryItem
  | error (validator : String) (reason : String) : SummaryItem
deriving DecidableEq

/-- Normal summary entry built from a successful `get_account` query,
as in the `try` body of the per-validator loop. -/
def summary_entry (state : VaultState) (validator : String)
    (acct : StakingAccount) : SummaryItem :=
  .entry validator
    ((acct.staked_balance : ℚ) / (10 : ℚ) ^ (24 : Nat))
    ((acct.unstaked_balance : ℚ) / (10 : ℚ) ^ (24 : Nat))
    acct.can_withdraw
    (if acct.can_withdraw then none
     else some ((pyDictGet state.unstake_entries validator).map
                  (fun e => e.epoch_height),
                state.current_epoch))

/-- Embedding of
`sorted(set(active_validators).union(set(unstake_entries.keys())))`:
the ascending enumeration of the union of the vault's active validators
and the keys of its unstake entries. -/
def mergedValidators (state : VaultState) : List String :=
  List.insertionSort (fun a b => strLeb a b = true)
    ((state.active_validators ++ state.unstake_entries.map Prod.fst).dedup)

/-- Embedding of the accumulation loop of `vault_delegation_summary`:
each validator is queried independently; a raising query contributes the
`{validator, error}` record, a successful one the normal entry. -/
def vault_delegation_summary (state : VaultState)
    (query : String → Except String StakingAccount) : List SummaryItem :=
  (mergedValidators state).map (fun v =>
    match query v with
    | .ok acct => summary_entry state v acct
    | .error e => .error v e)

/-- Validator id reported by a summary item (normal or error record). -/
def SummaryItem.validatorId : SummaryItem → String
  | .entry v _ _ _ _ => v
  | .error v _ => v

/-! ### Outcome discriminators and concrete fixtures -/

/-- Whether a `repay_loan` outcome is the contract-panic reply. -/
def RepayOutcome.isContractPanic : RepayOutcome → Bool
  | .contractPanic _ => true
  | _ => false

/-- Whether an `accept_liquidity_request` transfer outcome is the
soft-failure taxonomy class (it never is: the tool has no such branch). -/
def AcceptTxOutcome.isAccepted : AcceptTxOutcome → Bool
  | .accepted _ => true
  | _ => false

/-- Transaction status carrying a structured execution error, the shape
asserted by the repository's own tests. -/
def execErrorStatus (msg : String) : Json :=
  .obj [("Failure", .obj [("ActionError", .obj [("kind", .obj
    [("FunctionCallError", .obj [("ExecutionError", .str msg)])])])])]

/-- Successful transaction status (`{"SuccessValue": ""}`). -/
def successStatus : Json :=
  .obj [("SuccessValue", .str "")]

/-- Transaction status whose `Failure` payload carries an action-error
kind other than `FunctionCallError`. -/
def otherKindFailureStatus : Json :=
  .obj [("Failure", .obj [("ActionError", .obj [("kind", .obj
    [("DelegateActionExpired", .obj [])])])])]

/-- Soft-failure event log emitted when repayment funds cannot reach the
lender. -/
def repayFailedLog : String :=
  "EVENT_JSON:\x7b\"event\":\"repay_loan_failed\"\x7d"

/-- Soft-failure event log emitted when the vault lacks staked collateral. -/
def insufficientStakeLog : String :=
  "EVENT_JSON:\x7b\"event\":\"liquidity_request_failed_insufficient_stake\"\x7d"

/-- Pending liquidity request fixture (the repository's test vector). -/
def sampleRequest : LiquidityRequest :=
  { token := "usdc.tkn.primitives.testnet", amount := "500000000",
    interest := "50000000", collateral := "10000000000000000000000000",
    duration := 2592000 }

/-- Vault with an open, not yet accepted liquidity request. -/
def openVault : VaultState :=
  { owner := "alice.testnet", index := 1, version := 3,
    is_listed_for_takeover := false, active_validators := [],
    unstake_entries := [], liquidity_request := some sampleRequest,
    accepted_offer := none, current_epoch := 100 }

/-- Vault whose request has already been accepted (`accepted_offer` is
non-null). -/
def fundedVault : VaultState :=
  { openVault with
    accepted_offer := some { lender := "lender.testnet",
                             accepted_at := "1710001000000000000" } }

/-- Vault delegating to three validators: `a.pool` and `c.pool` active,
`b.pool` only pending unstake. -/
def threeValidatorVault : VaultState :=
  { owner := "alice.testnet", index := 0, version := 1,
    is_listed_for_takeover := false,
    active_validators := ["c.pool", "a.pool"],
    unstake_entries := [("b.pool", { amount := 2, epoch_height := 105 })],
    liquidity_request := none, accepted_offer := none,
    current_epoch := 108 }

/-- Per-validator query that raises exactly for `b.pool`. -/
def failingBQuery : String → Except String StakingAccount := fun v =>
  if v = "b.pool" then .error "Contract not deployed"
  else .ok { staked_balance := 10 ^ 25, unstaked_balance := 0,
             can_withdraw := true }

/-! ## Theorems -/

/-- C2: opening a request for `amount=500`, `denom="usdc"` (6 decimals),
`interest=50`, `duration=30` days, `collateral=100` NEAR produces a
`request_liquidity` contract call whose arguments are exactly
`amount="500000000"`, `interest="50000000"`,
`collateral="100000000000000000000000000"` (yocto-NEAR) and
`duration=2592000` seconds, with the testnet USDC contract as token. -/
theorem request_liquidity_scaling_scenario :
    request_liquidity_args "testnet" 500 "usdc" 50 30 100 =
      .ok { token := "usdc.tkn.primitives.testnet",
            amount := "500000000",
            interest := "50000000",
            collateral := "100000000000000000000000000",
            duration := 2592000 } := rfl

/-- C1 counterexample: a status that carries the structured
execution-error payload `ExecutionError: ""` is NOT classified as a
contract panic — the empty string is falsy in Python, so `repay_loan`
falls through to log inspection and reports the soft failure instead. -/
theorem panic_precedence_fails_on_empty_message :
    get_failure_message_from_tx_status (execErrorStatus "") =
      .ok (some (.str "")) ∧
    repay_loan ⟨execErrorStatus "", [repayFailedLog], "h"⟩ =
      .softFailure ∧
    (repay_loan ⟨execErrorStatus "", [repayFailedLog],
        "h"⟩).isContractPanic = false :=
  ⟨rfl, rfl, rfl⟩

/-- C1 (amended): whenever the shared classifier extracts a truthy
(non-empty) execution-error payload from the transaction status, all
three mutating tools classify the outcome as a contract panic, whatever
the logs contain — the panic check precedes any log inspection. -/
theorem panic_classification_precedes_log_inspection
    (status msg : Json) (logs : List String) (h : String)
    (hmsg : get_failure_message_from_tx_status status = .ok (some msg))
    (ht : msg.truthy = true) :
    repay_loan ⟨status, logs, h⟩ = .contractPanic msg ∧
    request_liquidity_classify ⟨status, logs, h⟩ = .contractPanic msg ∧
    accept_liquidity_request_classify ⟨status, logs, h⟩ =
      .transferPanic msg := by
  refine ⟨?_, ?_, ?_⟩ <;>
    simp only [repay_loan, request_liquidity_classify,
      accept_liquidity_request_classify, hmsg, optTruthy, ht, if_true,
      Option.getD_some]

/-- Witness for the amended C1 theorem at the repository's own panic test
vector, with a soft-failure event present in the logs. -/
theorem panic_classification_witness :
    repay_loan ⟨execErrorStatus "Smart contract panicked",
        [repayFailedLog], "h"⟩ =
      .contractPanic (.str "Smart contract panicked") :=
  (panic_classification_precedes_log_inspection
    (execErrorStatus "Smart contract panicked")
    (.str "Smart contract panicked") [repayFailedLog] "h" rfl rfl).1

/-- C6 counterexample: on a transaction that succeeded on-chain but whose
logs carry the soft-failure event
`liquidity_request_failed_insufficient_stake`, `request_liquidity`
classifies a soft failure while `accept_liquidity_request` reports plain
success (and still triggers indexing): the two tools do NOT share the
three-way taxonomy, because `accept_liquidity_request` never inspects
logs. -/
theorem accept_ignores_soft_failure_events :
    request_liquidity_classify ⟨successStatus, [insufficientStakeLog],
        "tx1"⟩ = .insufficientStake ∧
    accept_liquidity_request_classify ⟨successStatus,
        [insufficientStakeLog], "tx1"⟩ = .accepted "tx1" ∧
    accept_triggers_indexing ⟨successStatus, [insufficientStakeLog],
        "tx1"⟩ = true :=
  ⟨rfl, rfl, rfl⟩

/-- C6 (amended): `accept_liquidity_request` classifies its transfer
outcome two-ways only — contract panic versus success — and its result is
entirely independent of the emitted logs, unlike `request_liquidity`'s
three-way classification. -/
theorem accept_classification_is_two_way
    (status : Json) (logs logs' : List String) (h : String) :
    (accept_liquidity_request_classify ⟨status, logs, h⟩ =
     accept_liquidity_request_classify ⟨status, logs', h⟩) ∧
    (∀ f, get_failure_message_from_tx_status status = .ok f →
      (optTruthy f = true →
        accept_liquidity_request_classify ⟨status, logs, h⟩ =
          .transferPanic (f.getD .null)) ∧
      (optTruthy f = false →
        accept_liquidity_request_classify ⟨status, logs, h⟩ =
          .accepted h)) := by
  constructor
  · simp only [accept_liquidity_request_classify]
  · intro f hf
    constructor
    · intro ht
      simp only [accept_liquidity_request_classify, hf, ht, if_true]
    · intro ht
      simp only [accept_liquidity_request_classify, hf, ht,
        Bool.false_eq_true, if_false]

/-- Witness for the amended C6 theorem: a panicking transfer is reported
as a panic regardless of logs. -/
theorem accept_classification_witness :
    accept_liquidity_request_classify ⟨execErrorStatus "Invalid offer",
        [insufficientStakeLog], "tx_fail"⟩ =
      .transferPanic (.str "Invalid offer") :=
  ((accept_classification_is_two_way (execErrorStatus "Invalid offer")
      [insufficientStakeLog] [] "tx_fail").2
    (some (.str "Invalid offer")) rfl).1 rfl

/-- C4: `accept_liquidity_request` replies `NoActiveRequest` — one and the
same message for both conditions — and issues no `ft_transfer_call`
whenever the vault has no `liquidity_request` or already has an
`accepted_offer`; when a request is open and unaccepted, the transfer it
issues is built exclusively from the recorded request (token contract,
amount, interest, collateral, duration), never from caller input. -/
theorem accept_request_guard_and_transfer
    (vault_id : String) (state : VaultState) :
    ((state.liquidity_request = none ∨ state.accepted_offer ≠ none) →
      accept_liquidity_request_action vault_id state =
        .reject (noActiveRequestReply vault_id)) ∧
    (∀ req, state.liquidity_request = some req →
      state.accepted_offer = none →
      accept_liquidity_request_action vault_id state =
        .transfer
          { contract_id := req.token, receiver_id := vault_id,
            amount := req.amount,
            msg := { action := "AcceptLiquidityRequest",
                     token := req.token, amount := req.amount,
                     interest := req.interest,
                     collateral := req.collateral,
                     duration := req.duration } }) := by
  constructor
  · intro hcond
    rcases hcond with hreq | hoffer
    · simp [accept_liquidity_request_action, hreq]
    · simp [accept_liquidity_request_action, Option.isSome_iff_ne_none.mpr hoffer]
  · intro req hreq hoffer
    simp [accept_liquidity_request_action, hreq, hoffer]

/-- Witness for the C4 theorem on the repository's two test vaults: the
already-funded vault is rejected with the merged error message, and the
open vault yields the transfer echoing the recorded request exactly. -/
theorem accept_request_guard_witness :
    accept_liquidity_request_action "vault-2.factory.testnet" fundedVault =
      .reject (noActiveRequestReply "vault-2.factory.testnet") ∧
    accept_liquidity_request_action "vault-0.factory.testnet" openVault =
      .transfer
        { contract_id := "usdc.tkn.primitives.testnet",
          receiver_id := "vault-0.factory.testnet",
          amount := "500000000",
          msg := { action := "AcceptLiquidityRequest",
                   token := "usdc.tkn.primitives.testnet",
                   amount := "500000000", interest := "50000000",
                   collateral := "10000000000000000000000000",
                   duration := 2592000 } } :=
  ⟨(accept_request_guard_and_transfer "vault-2.factory.testnet"
      fundedVault).1 (Or.inr (by simp [fundedVault, openVault])),
   (accept_request_guard_and_transfer "vault-0.factory.testnet"
      openVault).2 sampleRequest rfl rfl⟩

/-- C5: a `repay_loan` transaction with a success status whose logs carry
the `repay_loan_failed` event is classified as the soft failure (funds
could not reach the lender) and does not trigger the best-effort indexing
call, and indexing is triggered only on a true success: no contract panic
and no `repay_loan_failed` event in the logs. -/
theorem repay_soft_failure_blocks_indexing (tx : TransactionResult)
    (hstatus : tx.status.get "Failure" = .ok none)
    (hlog : log_contains_event tx.logs "repay_loan_failed" = true) :
    repay_loan tx = .softFailure ∧
    repay_triggers_indexing tx = false ∧
    (∀ tx' : TransactionResult, repay_triggers_indexing tx' = true →
      (∃ f, get_failure_message_from_tx_status tx'.status = .ok f ∧
            optTruthy f = false) ∧
      log_contains_event tx'.logs "repay_loan_failed" = false) := by
  have hcls : get_failure_message_from_tx_status tx.status = .ok none := by
    simp only [get_failure_message_from_tx_status, hstatus]
  have h1 : repay_loan tx = .softFailure := by
    simp only [repay_loan, hcls, optTruthy, Bool.false_eq_true, if_false,
      hlog, if_true]
  refine ⟨h1, ?_, ?_⟩
  · simp only [repay_triggers_indexing, h1]
  · intro tx' h'
    simp only [repay_triggers_indexing, repay_loan] at h'
    rcases hc : get_failure_message_from_tx_status tx'.status with e | f
    · rw [hc] at h'
      simp at h'
    · rw [hc] at h'
      by_cases ht : optTruthy f
      · simp [ht] at h'
      · by_cases hl : log_contains_event tx'.logs "repay_loan_failed"
        · simp [ht, hl] at h'
        · exact ⟨⟨f, rfl, by simpa using ht⟩, by simpa using hl⟩

/-- Witness for the C5 theorem at the repository's soft-failure test
vector (success status, `repay_loan_failed` event in the logs). -/
theorem repay_soft_failure_witness :
    repay_loan ⟨successStatus, [repayFailedLog], "tx_logs"⟩ =
      .softFailure ∧
    repay_triggers_indexing ⟨successStatus, [repayFailedLog], "tx_logs"⟩ =
      false :=
  ⟨(repay_soft_failure_blocks_indexing
      ⟨successStatus, [repayFailedLog], "tx_logs"⟩ rfl rfl).1,
   (repay_soft_failure_blocks_indexing
      ⟨successStatus, [repayFailedLog], "tx_logs"⟩ rfl rfl).2.1⟩

/-- C10: when a status carries a truthy `Failure` payload whose nested
structure does not follow the
`ActionError.kind.FunctionCallError.ExecutionError` path (each level a
dict, with the final `ExecutionError` key absent), the shared classifier
returns no failure message, so — absent soft-failure events in the logs —
`repay_loan`, `request_liquidity` and `accept_liquidity_request` all
treat the failed transaction as a success, trigger indexing, and reply
success. -/
theorem nonmatching_failure_shape_is_success
    (status f a k fc : Json) (logs : List String) (h : String)
    (hf : status.get "Failure" = .ok (some f))
    (ht : f.truthy = true)
    (ha : f.getD "ActionError" = .ok a)
    (hk : a.getD "kind" = .ok k)
    (hfc : k.getD "FunctionCallError" = .ok fc)
    (hexec : fc.get "ExecutionError" = .ok none)
    (hlog1 : log_contains_event logs "repay_loan_failed" = false)
    (hlog2 : log_contains_event logs
      "liquidity_request_failed_insufficient_stake" = false) :
    get_failure_message_from_tx_status status = .ok none ∧
    repay_loan ⟨status, logs, h⟩ = .success h ∧
    repay_triggers_indexing ⟨status, logs, h⟩ = true ∧
    request_liquidity_classify ⟨status, logs, h⟩ = .success h ∧
    accept_liquidity_request_classify ⟨status, logs, h⟩ = .accepted h := by
  have hcls : get_failure_message_from_tx_status status = .ok none := by
    simp only [get_failure_message_from_tx_status, hf, ht, if_true, ha, hk,
      hfc, hexec]
  have h2 : repay_loan ⟨status, logs, h⟩ = .success h := by
    simp only [repay_loan, hcls, optTruthy, Bool.false_eq_true, if_false,
      hlog1]
  refine ⟨hcls, h2, ?_, ?_, ?_⟩
  · simp only [repay_triggers_indexing, h2]
  · simp only [request_liquidity_classify, hcls, optTruthy,
      Bool.false_eq_true, if_false, hlog2]
  · simp only [accept_liquidity_request_classify, hcls, optTruthy,
      Bool.false_eq_true, if_false]

/-- Witness for the C10 theorem: a `Failure` with a `DelegateActionExpired`
action-error kind and empty logs sails through all three tools as a
success. -/
theorem nonmatching_failure_shape_witness :
    repay_loan ⟨otherKindFailureStatus, [], "h"⟩ = .success "h" ∧
    repay_triggers_indexing ⟨otherKindFailureStatus, [], "h"⟩ = true := by
  have base := nonmatching_failure_shape_is_success otherKindFailureStatus
    (.obj [("ActionError", .obj [("kind", .obj
      [("DelegateActionExpired", .obj [])])])])
    (.obj [("kind", .obj [("DelegateActionExpired", .obj [])])])
    (.obj [("DelegateActionExpired", .obj [])])
    (.obj []) [] "h" rfl rfl rfl rfl rfl rfl rfl rfl
  exact ⟨base.2.1, base.2.2.1⟩

/-- Helper: `roundHalfEven` is the identity on integers. -/
theorem roundHalfEven_intCast (k : ℤ) : roundHalfEven (k : ℚ) = k := by
  simp only [roundHalfEven, Int.floor_intCast, sub_self]
  norm_num

/-- Helper: on exact halves, `roundHalfEven` picks the even neighbour. -/
theorem roundHalfEven_add_half (k : ℤ) :
    roundHalfEven ((k : ℚ) + 1 / 2) = k + k % 2 := by
  have hfloor : ⌊(k : ℚ) + 1 / 2⌋ = k := by
    rw [add_comm, Int.floor_add_int]
    norm_num
  simp only [roundHalfEven, hfloor, add_sub_cancel_left]
  norm_num
  rcases Int.emod_two_eq k with h | h
  · simp [h]
  · simp [h]

/-- Helper: `roundHalfEven` rounds to a nearest integer. -/
theorem roundHalfEven_nearest (q : ℚ) :
    |q - (roundHalfEven q : ℚ)| ≤ 1 / 2 := by
  have h0 : (⌊q⌋ : ℚ) ≤ q := Int.floor_le q
  have h1 : q < ⌊q⌋ + 1 := Int.lt_floor_add_one q
  simp only [roundHalfEven]
  by_cases hlt : q - (⌊q⌋ : ℚ) < 1 / 2
  · rw [if_pos hlt, abs_le]
    constructor <;> linarith
  · by_cases hgt : (1 : ℚ) / 2 < q - (⌊q⌋ : ℚ)
    · rw [if_neg hlt, if_pos hgt, abs_le]
      push_cast
      constructor <;> linarith
    · have heq : q - (⌊q⌋ : ℚ) = 1 / 2 :=
        le_antisymm (not_lt.mp hgt) (not_lt.mp hlt)
      rw [if_neg hlt, if_neg hgt]
      by_cases he : ⌊q⌋ % 2 = 0
      · rw [if_pos he, abs_le]
        constructor <;> linarith
      · rw [if_neg he, abs_le]
        push_cast
        constructor <;> linarith

/-- Helper: `natAbs` form of the 28-digit quantize overflow test. -/
theorem pow28_le_natAbs_iff (r : ℤ) :
    (10 : Nat) ^ 28 ≤ r.natAbs ↔ (10 : ℤ) ^ 28 ≤ |r| := by
  rw [Int.abs_eq_natAbs]
  constructor
  · intro h
    exact_mod_cast h
  · intro h
    exact_mod_cast h

/-- Helper: `roundSig` is the identity on any value that is an integer
multiple of the position it rounds at. -/
theorem roundSig_eq_self (v : ℚ) (m : ℤ)
    (hv : v = (m : ℚ) * (10 : ℚ) ^ (Int.log 10 |v| + 1 - ((28 : Nat) : ℤ))) :
    roundSig 28 v = v := by
  rcases eq_or_ne v 0 with rfl | hv0
  · simp [roundSig]
  · rw [roundSig, if_neg hv0]
    set E : ℤ := Int.log 10 |v| + 1 - ((28 : Nat) : ℤ) with hE
    have h10 : (10 : ℚ) ^ E ≠ 0 := zpow_ne_zero _ (by norm_num)
    have hdiv : v / (10 : ℚ) ^ E = (m : ℚ) := by
      rw [hv, mul_div_cancel_right₀ _ h10]
    rw [hdiv, roundHalfEven_intCast, ← hv]

/-- Helper: `roundSig 28` is the identity on integers below the 28-digit
bound, i.e. the context rounding never touches them. -/
theorem roundSig_intCast (m : ℤ) (hm : |m| < (10 : ℤ) ^ 28) :
    roundSig 28 ((m : ℚ)) = (m : ℚ) := by
  rcases eq_or_ne m 0 with rfl | hm0
  · simp [roundSig]
  · have hv0 : ((m : ℚ)) ≠ 0 := Int.cast_ne_zero.mpr hm0
    have habs_pos : (0 : ℚ) < |(m : ℚ)| := abs_pos.mpr hv0
    have h1le : (1 : ℚ) ≤ |(m : ℚ)| := by
      rw [← Int.cast_abs]
      exact_mod_cast Int.one_le_abs hm0
    have hloglt : Int.log 10 |(m : ℚ)| < 28 := by
      rw [← Int.lt_zpow_iff_log_lt (by norm_num) habs_pos]
      rw [← Int.cast_abs]
      calc ((|m| : ℤ) : ℚ) < (((10 : ℤ) ^ 28 : ℤ) : ℚ) := by exact_mod_cast hm
        _ = ((10 : Nat) : ℚ) ^ (28 : ℤ) := by push_cast; norm_num
    have hlog0 : (0 : ℤ) ≤ Int.log 10 |(m : ℚ)| := by
      rw [← Int.zpow_le_iff_le_log (by norm_num) habs_pos]
      simpa using h1le
    set k : Nat := (27 - Int.log 10 |(m : ℚ)|).toNat with hk
    have hkE : Int.log 10 |(m : ℚ)| + 1 - ((28 : Nat) : ℤ) = -(k : ℤ) := by
      rw [hk, Int.toNat_of_nonneg (by omega)]
      push_cast
      omega
    apply roundSig_eq_self ((m : ℚ)) (m * 10 ^ k)
    rw [hkE, zpow_neg, zpow_natCast]
    push_cast
    rw [mul_inv_cancel_right₀ (by positivity)]

/-- Helper: the conversion raises `InvalidOperation` exactly on the
28-digit overflow condition; this is its error-side equation. -/
theorem to_minor_units_eq_error (x : ℚ) (dec : Nat)
    (h : (10 : ℤ) ^ 28 ≤
      |roundHalfEven (roundSig 28 (x * (10 : ℚ) ^ dec))|) :
    to_minor_units x dec = .error "InvalidOperation" := by
  unfold to_minor_units
  rw [if_pos ((pow28_le_natAbs_iff _).mpr h)]

/-- Helper: success-side equation of the conversion. -/
theorem to_minor_units_eq_ok (x : ℚ) (dec : Nat)
    (h : ¬ (10 : ℤ) ^ 28 ≤
      |roundHalfEven (roundSig 28 (x * (10 : ℚ) ^ dec))|) :
    to_minor_units x dec =
      .ok (roundHalfEven (roundSig 28 (x * (10 : ℚ) ^ dec))) := by
  unfold to_minor_units
  rw [if_neg (fun hc => h ((pow28_le_natAbs_iff _).mp hc))]

/-- Helper: exact minor-unit conversion for a product that is an integer
below the 28-digit bound: no context rounding, no quantize overflow. -/
theorem to_minor_units_int (q : ℚ) (dec : Nat) (m : ℤ)
    (hqm : q * (10 : ℚ) ^ dec = (m : ℚ)) (hm : |m| < (10 : ℤ) ^ 28) :
    to_minor_units q dec = .ok m := by
  have hval : roundHalfEven (roundSig 28 (q * (10 : ℚ) ^ dec)) = m := by
    rw [hqm, roundSig_intCast m hm, roundHalfEven_intCast]
  have hcond : ¬ (10 : ℤ) ^ 28 ≤
      |roundHalfEven (roundSig 28 (q * (10 : ℚ) ^ dec))| := by
    rw [hval]
    exact not_le.mpr hm
  rw [to_minor_units_eq_ok q dec hcond, hval]

/-- Helper: `10^4` whole units at 24 decimals scale to exactly `10^28`,
whose quantize overflows the 28-digit context: the conversion raises
`InvalidOperation`. -/
theorem to_minor_units_overflow_at_ten_thousand :
    to_minor_units (10000 : ℚ) 24 = .error "InvalidOperation" := by
  have hprod : (10000 : ℚ) * (10 : ℚ) ^ (24 : Nat) =
      (((10 : ℤ) ^ 28 : ℤ) : ℚ) := by
    push_cast
    norm_num
  have hzpow : (((10 : ℤ) ^ 28 : ℤ) : ℚ) = ((10 : Nat) : ℚ) ^ (28 : ℤ) := by
    push_cast
    norm_num
  have hlog : Int.log 10 |(((10 : ℤ) ^ 28 : ℤ) : ℚ)| = 28 := by
    rw [abs_of_pos (by positivity), hzpow, Int.log_zpow (by norm_num)]
  have hstep : roundSig 28 ((((10 : ℤ) ^ 28 : ℤ) : ℚ)) =
      (((10 : ℤ) ^ 28 : ℤ) : ℚ) := by
    apply roundSig_eq_self _ ((10 : ℤ) ^ 27)
    rw [hlog]
    push_cast
    norm_num
  apply to_minor_units_eq_error
  rw [hprod, hstep, roundHalfEven_intCast, abs_of_nonneg (by positivity)]

/-- Helper: `delegate` issues its contract call when the conversion
succeeds. -/
theorem delegate_parse_fin_ok (q : ℚ) (y : ℤ)
    (h : to_minor_units q 24 = .ok y) :
    delegate_parse_amount (.fin q) = some y := by
  rw [show delegate_parse_amount (.fin q) =
      exceptToOption (to_minor_units q 24) from rfl, h]
  rfl

/-- Helper: `delegate` takes the Invalid-amount branch when the
conversion raises. -/
theorem delegate_parse_fin_error (q : ℚ) (e : String)
    (h : to_minor_units q 24 = .error e) :
    delegate_parse_amount (.fin q) = none := by
  rw [show delegate_parse_amount (.fin q) =
      exceptToOption (to_minor_units q 24) from rfl, h]
  rfl

/-- C3 counterexample: `d = 1/2` is a non-negative decimal with at most 6
fractional digits (`0.5 * 10^6 = 500000` exactly, well inside the
28-digit context), yet the display path `to_human` quantizes to a whole
number, so the round trip returns `0`, not `d`. -/
theorem roundtrip_fails_on_half :
    (0 : ℚ) ≤ 1 / 2 ∧
    (1 : ℚ) / 2 * 10 ^ (6 : Nat) = ((500000 : ℤ) : ℚ) ∧
    to_minor_units (1 / 2) 6 = .ok 500000 ∧
    to_human 500000 6 = 0 ∧
    (0 : ℚ) ≠ 1 / 2 := by
  have h2 : (1 : ℚ) / 2 * 10 ^ (6 : Nat) = ((500000 : ℤ) : ℚ) := by
    norm_num
  have h3 : to_minor_units (1 / 2) 6 = .ok 500000 :=
    to_minor_units_int (1 / 2) 6 500000 h2 (by norm_num)
  have h4 : to_human 500000 6 = 0 := by
    unfold to_human
    have hdiv : ((500000 : ℤ) : ℚ) / 10 ^ (6 : Nat) = ((0 : ℤ) : ℚ) + 1 / 2 := by
      norm_num
    rw [hdiv, roundHalfEven_add_half]
    norm_num
  exact ⟨by norm_num, h2, h3, h4, by norm_num⟩

/-- C3 (amended): the scale/display round trip is exact for whole-number
amounts within the `Decimal` context's 28-digit range — the only amounts
the tools produce, since `request_liquidity` takes integer quantities:
for every non-negative integer `n` and every `decimals` with
`n * 10^decimals < 10^28`, `to_human` of the scaled value returns `n`.
For fractional amounts the display path's `quantize(Decimal(1))` rounds
to a whole number and loses the fraction, and from `10^28` upwards the
scaling itself raises `InvalidOperation`. -/
theorem roundtrip_exact_on_whole_amounts (n dec : Nat)
    (h : (n : ℤ) * 10 ^ dec < 10 ^ 28) :
    to_minor_units (n : ℚ) dec = .ok ((n : ℤ) * 10 ^ dec) ∧
    to_human ((n : ℤ) * 10 ^ dec) dec = (n : ℚ) := by
  constructor
  · apply to_minor_units_int
    · push_cast
      ring
    · rw [abs_of_nonneg (by positivity)]
      exact h
  · unfold to_human
    have h2 : (((n : ℤ) * 10 ^ dec : ℤ) : ℚ) / 10 ^ dec = (((n : ℤ) : ℚ)) := by
      have hpow : ((10 : ℚ) ^ dec) ≠ 0 := by positivity
      push_cast
      exact mul_div_cancel_right₀ _ hpow
    rw [h2, roundHalfEven_intCast]
    norm_cast

/-- Witness for the amended C3 theorem at the end-to-end scenario's
`amount = 500`, `decimals = 6`. -/
theorem roundtrip_whole_witness :
    to_minor_units ((500 : Nat) : ℚ) 6 = .ok ((500 : ℤ) * 10 ^ 6) ∧
    to_human ((500 : ℤ) * 10 ^ 6) 6 = ((500 : Nat) : ℚ) :=
  roundtrip_exact_on_whole_amounts 500 6 (by norm_num)

/-- C9 counterexample: the original claim fails in both directions.  The
amount string `"-5"` parses to the negative finite decimal `-5`, which
the local validation of `delegate` does NOT reject: the conversion
succeeds with `-5 * 10^24` and the `delegate` contract call is issued
with that negative amount.  Conversely `"10000"` — a finite,
non-negative, parseable decimal — IS rejected locally: its product
`10^28` overflows the 28-digit context, `quantize` raises
`InvalidOperation`, and no contract call is issued. -/
theorem negative_amount_not_rejected :
    (-5 : ℚ) < 0 ∧
    delegate_parse_amount (.fin (-5)) = some (-5 * 10 ^ 24) ∧
    delegate_parse_amount (.fin (-5)) ≠ none ∧
    (0 : ℚ) ≤ 10000 ∧
    delegate_parse_amount (.fin 10000) = none := by
  have h1 : to_minor_units (-5 : ℚ) 24 = .ok (-5 * 10 ^ 24) := by
    apply to_minor_units_int
    · push_cast
      ring
    · rw [abs_of_nonpos (by norm_num)]
      norm_num
  have h2 : delegate_parse_amount (.fin (-5)) = some (-5 * 10 ^ 24) :=
    delegate_parse_fin_ok (-5) _ h1
  refine ⟨by norm_num, h2, by rw [h2]; simp, by norm_num, ?_⟩
  exact delegate_parse_fin_error 10000 _ to_minor_units_overflow_at_ten_thousand

/-- C9 (amended): `to_minor_units` multiplies by `10^decimals` and rounds
with round-half-to-even under the `Decimal` context, and the local
validation of `delegate` fails exactly on non-finite or unparseable
inputs or when the quantized result reaches the context's 28-digit limit
(`10^28` minor units, i.e. `10^4` NEAR).  Finite decimals below that
limit — negative ones included — are converted (exactly, when the product
is an integer in range) and forwarded to the contract, and within the
context the conversion rounds to a nearest integer with ties to even. -/
theorem to_minor_units_failure_characterization :
    (∀ a : AmountInput, delegate_parse_amount a = none ↔
        a = .nonFinite ∨ a = .unparseable ∨
        ∃ q, a = .fin q ∧
          (10 : ℤ) ^ 28 ≤
            |roundHalfEven (roundSig 28 (q * (10 : ℚ) ^ (24 : Nat)))|) ∧
    (∀ (q : ℚ) (m : ℤ), q * (10 : ℚ) ^ (24 : Nat) = (m : ℚ) →
        |m| < (10 : ℤ) ^ 28 → delegate_parse_amount (.fin q) = some m) ∧
    (∀ (q : ℚ) (r : ℤ),
        roundSig 28 (q * (10 : ℚ) ^ (24 : Nat)) = q * (10 : ℚ) ^ (24 : Nat) →
        delegate_parse_amount (.fin q) = some r →
        |q * (10 : ℚ) ^ (24 : Nat) - (r : ℚ)| ≤ 1 / 2) ∧
    (∀ k : ℤ, roundHalfEven ((k : ℚ) + 1 / 2) = k + k % 2) := by
  refine ⟨?_, ?_, ?_, roundHalfEven_add_half⟩
  · intro a
    cases a with
    | fin q =>
        by_cases hC : (10 : ℤ) ^ 28 ≤
            |roundHalfEven (roundSig 28 (q * (10 : ℚ) ^ (24 : Nat)))|
        · rw [delegate_parse_fin_error q _ (to_minor_units_eq_error q 24 hC)]
          exact iff_of_true rfl (Or.inr (Or.inr ⟨q, rfl, hC⟩))
        · rw [delegate_parse_fin_ok q _ (to_minor_units_eq_ok q 24 hC)]
          constructor
          · intro h
            exact absurd h (by simp)
          · rintro (h | h | ⟨q', hq', hbound⟩)
            · exact absurd h (by simp)
            · exact absurd h (by simp)
            · cases hq'
              exact absurd hbound hC
    | nonFinite =>
        exact iff_of_true rfl (Or.inl rfl)
    | unparseable =>
        exact iff_of_true rfl (Or.inr (Or.inl rfl))
  · intro q m hqm hm
    exact delegate_parse_fin_ok q m (to_minor_units_int q 24 m hqm hm)
  · intro q r hstep hr
    by_cases hC : (10 : ℤ) ^ 28 ≤
        |roundHalfEven (roundSig 28 (q * (10 : ℚ) ^ (24 : Nat)))|
    · rw [delegate_parse_fin_error q _ (to_minor_units_eq_error q 24 hC)] at hr
      exact absurd hr (by simp)
    · rw [delegate_parse_fin_ok q _ (to_minor_units_eq_ok q 24 hC)] at hr
      have hval : roundHalfEven (roundSig 28 (q * (10 : ℚ) ^ (24 : Nat))) = r := by
        simpa using hr
      rw [← hval, hstep]
      exact roundHalfEven_nearest _

/-- Witness for the amended C9 theorem at the concrete inputs `1 NEAR`
and the non-finite parse result. -/
theorem to_minor_units_characterization_witness :
    delegate_parse_amount (.fin 1) = some (10 ^ 24) ∧
    delegate_parse_amount .nonFinite = none :=
  ⟨to_minor_units_failure_characterization.2.1 1 (10 ^ 24)
      (by push_cast; ring)
      (by rw [abs_of_nonneg (by positivity)]; norm_num),
   (to_minor_units_failure_characterization.1 .nonFinite).mpr (Or.inl rfl)⟩

/-- C7: every validator of the merged set contributes exactly one summary
line — a normal entry when its `get_account` query succeeds, an error
record carrying the validator id and the failure reason when it raises —
so a single validator failure never aborts the summary and the entry
count always equals the merged validator-set size. -/
theorem summary_isolates_validator_failures (state : VaultState)
    (query : String → Except String StakingAccount) :
    (vault_delegation_summary state query).length =
      (mergedValidators state).length ∧
    (∀ v, v ∈ mergedValidators state →
      (∀ e, query v = .error e →
        SummaryItem.error v e ∈ vault_delegation_summary state query) ∧
      (∀ acct, query v = .ok acct →
        summary_entry state v acct ∈
          vault_delegation_summary state query)) := by
  refine ⟨by simp [vault_delegation_summary], ?_⟩
  intro v hv
  constructor
  · intro e he
    have hm := List.mem_map_of_mem
      (fun v => match query v with
        | .ok acct => summary_entry state v acct
        | .error e => SummaryItem.error v e) hv
    simp only [he] at hm
    exact hm
  · intro acct hacct
    have hm := List.mem_map_of_mem
      (fun v => match query v with
        | .ok acct => summary_entry state v acct
        | .error e => SummaryItem.error v e) hv
    simp only [hacct] at hm
    exact hm

/-- Witness for the C7 theorem on a three-validator vault whose `b.pool`
query raises: the summary has three lines, among them the error record
for `b.pool` and the normal entry for `a.pool`. -/
theorem summary_isolation_witness :
    (vault_delegation_summary threeValidatorVault failingBQuery).length =
      3 ∧
    SummaryItem.error "b.pool" "Contract not deployed" ∈
      vault_delegation_summary threeValidatorVault failingBQuery ∧
    summary_entry threeValidatorVault "a.pool"
        { staked_balance := 10 ^ 25, unstaked_balance := 0,
          can_withdraw := true } ∈
      vault_delegation_summary threeValidatorVault failingBQuery :=
  ⟨(summary_isolates_validator_failures threeValidatorVault
      failingBQuery).1.trans (by decide),
   ((summary_isolates_validator_failures threeValidatorVault
      failingBQuery).2 "b.pool" (by decide)).1 "Contract not deployed" rfl,
   ((summary_isolates_validator_failures threeValidatorVault
      failingBQuery).2 "a.pool" (by decide)).2 _ rfl⟩

/-- Helper: `charLe` decides the lexicographic order: it holds exactly
when the reversed strict lexicographic order does not. -/
theorem charLe_iff_not_lex :
    ∀ as bs : List Char, charLe as bs = true ↔ ¬ List.Lex (· < ·) bs as := by
  intro as
  induction as with
  | nil =>
      intro bs
      exact iff_of_true rfl (fun h => by cases h)
  | cons a as ih =>
      intro bs
      cases bs with
      | nil =>
          apply iff_of_false
          · simp [charLe]
          · exact fun h => h List.Lex.nil
      | cons b bs =>
          by_cases hab : a < b
          · apply iff_of_true
            · simp [charLe, hab]
            · intro hco
              cases hco with
              | rel h' => exact absurd hab (lt_asymm h')
              | cons h' => exact lt_irrefl a hab
          · by_cases hba : b < a
            · apply iff_of_false
              · simp [charLe, hab, hba]
              · exact fun h => h (List.Lex.rel hba)
            · have hableq : a = b := le_antisymm (not_lt.mp hba) (not_lt.mp hab)
              subst hableq
              have hstep : charLe (a :: as) (a :: bs) = charLe as bs := by
                simp [charLe, hab]
              rw [hstep, ih bs]
              constructor
              · intro h hco
                cases hco with
                | rel h' => exact lt_irrefl a h'
                | cons h' => exact h h'
              · exact fun h h' => h (List.Lex.cons h')

/-- Helper: `strLeb` agrees with the canonical order on `String`. -/
theorem strLeb_iff_le (a b : String) : strLeb a b = true ↔ a ≤ b := by
  rw [String.le_iff_toList_le, ← not_lt]
  exact charLe_iff_not_lex a.toList b.toList

/-- Helper: the merged validator list is sorted in the canonical string
order. -/
theorem mergedValidators_sorted (state : VaultState) :
    List.Sorted (· ≤ ·) (mergedValidators state) := by
  have hs : List.Sorted (fun a b => strLeb a b = true)
      (mergedValidators state) := by
    haveI : IsTotal String (fun a b => strLeb a b = true) :=
      ⟨fun a b => by
        rcases le_total a b with h | h
        · exact Or.inl ((strLeb_iff_le a b).mpr h)
        · exact Or.inr ((strLeb_iff_le b a).mpr h)⟩
    haveI : IsTrans String (fun a b => strLeb a b = true) :=
      ⟨fun a b c hab hbc => (strLeb_iff_le a c).mpr
        (le_trans ((strLeb_iff_le a b).mp hab) ((strLeb_iff_le b c).mp hbc))⟩
    exact List.sorted_insertionSort _ _
  exact hs.imp (fun h => (strLeb_iff_le _ _).mp h)

/-- Helper: the merged validator list has no duplicates. -/
theorem mergedValidators_nodup (state : VaultState) :
    (mergedValidators state).Nodup :=
  ((List.perm_insertionSort _ _).nodup_iff).mpr (List.nodup_dedup _)

/-- Helper: membership in the merged validator list is the union of the
active validators and the unstake-entry keys. -/
theorem mergedValidators_mem (state : VaultState) (v : String) :
    v ∈ mergedValidators state ↔
      v ∈ state.active_validators ∨
      v ∈ state.unstake_entries.map Prod.fst := by
  unfold mergedValidators
  rw [List.mem_insertionSort, List.mem_dedup, List.mem_append]

/-- Helper: two vaults whose merged validator sets coincide produce the
same merged validator list — the output order never depends on input
order. -/
theorem mergedValidators_eq_of_mem_eq (s₁ s₂ : VaultState)
    (h : ∀ v, v ∈ mergedValidators s₁ ↔ v ∈ mergedValidators s₂) :
    mergedValidators s₁ = mergedValidators s₂ :=
  List.eq_of_perm_of_sorted
    ((List.perm_ext_iff_of_nodup (mergedValidators_nodup s₁)
        (mergedValidators_nodup s₂)).mpr h)
    (mergedValidators_sorted s₁) (mergedValidators_sorted s₂)

/-- Helper: the validator ids reported by the summary are exactly the
merged validator list, whatever the query results are. -/
theorem summary_validator_ids (state : VaultState)
    (query : String → Except String StakingAccount) :
    (vault_delegation_summary state query).map SummaryItem.validatorId =
      mergedValidators state := by
  unfold vault_delegation_summary
  rw [List.map_map]
  have hid : ∀ v ∈ mergedValidators state,
      (SummaryItem.validatorId ∘ fun v =>
        match query v with
        | .ok acct => summary_entry state v acct
        | .error e => SummaryItem.error v e) v = id v := by
    intro v _
    cases hq : query v <;> simp [SummaryItem.validatorId, summary_entry, hq]
  rw [List.map_congr_left hid, List.map_id]

/-- C8: the validators reported by the delegation summary are exactly the
union of `active_validators` and the key-set of `unstake_entries`, listed
in ascending lexicographic order with no duplicates, and two summaries
over the same validator set (however ordered or queried) report the same
validator sequence. -/
theorem summary_sorted_union (state : VaultState)
    (query : String → Except String StakingAccount) :
    List.Sorted (· ≤ ·)
      ((vault_delegation_summary state query).map
        SummaryItem.validatorId) ∧
    ((vault_delegation_summary state query).map
        SummaryItem.validatorId).Nodup ∧
    (∀ v, v ∈ (vault_delegation_summary state query).map
        SummaryItem.validatorId ↔
      v ∈ state.active_validators ∨
      v ∈ state.unstake_entries.map Prod.fst) ∧
    (∀ (state₂ : VaultState)
        (query₂ : String → Except String StakingAccount),
      (∀ v, v ∈ mergedValidators state₂ ↔ v ∈ mergedValidators state) →
      (vault_delegation_summary state₂ query₂).map SummaryItem.validatorId
        = (vault_delegation_summary state query).map
            SummaryItem.validatorId) := by
  rw [summary_validator_ids]
  refine ⟨mergedValidators_sorted state, mergedValidators_nodup state,
    mergedValidators_mem state, ?_⟩
  intro state₂ query₂ hmem
  rw [summary_validator_ids]
  exact mergedValidators_eq_of_mem_eq state₂ state hmem

/-- Witness for the C8 theorem: a vault listing the same three validators
in a different order (all active, none unstaking) yields the same sorted
validator sequence as `threeValidatorVault`. -/
theorem summary_sorted_union_witness :
    (vault_delegation_summary
        { threeValidatorVault with
          active_validators := ["b.pool", "c.pool", "a.pool"],
          unstake_entries := [] }
        (fun _ => .error "down")).map SummaryItem.validatorId =
      (vault_delegation_summary threeValidatorVault
        failingBQuery).map SummaryItem.validatorId :=
  (summary_sorted_union threeValidatorVault failingBQuery).2.2.2
    { threeValidatorVault with
      active_validators := ["b.pool", "c.pool", "a.pool"],
      unstake_entries := [] }
    (fun _ => .error "down") (fun _ => Iff.rfl)

end SudoStake
